import Mathlib

/-!
Shallow embedding of the rover control kernel (TX2_Nodes / Rpi_code sources):
the master node's routing loop (tx2_master.c), the command queue library
(Command.c), the moving-average buffers (FilterGen.c), the shared-memory
handshake macros (SharedMem.h), and the navigation decision step of
MoveRover (tx2_nav_node.c).  C floats are modelled as rationals, machine
integers as naturals, NULL-pointer dereferences as a `none` result, and the
unbounded busy-wait loops as fuel-indexed loops over a trace of flag values.
-/

/-- Node identity enumeration from Messages.h (`nodeNames`), values 0..7. -/
inductive NodeName
  | TX2Comm
  | TX2Can
  | TX2Cam
  | TX2Nav
  | TX2Gps
  | TX2Gyro
  | Controller
  | TX2Master
  deriving DecidableEq, Repr

/-- Message type enumeration from Messages.h (`messageTypes`). -/
inductive MessageTypes
  | CANMessage
  | CamMessage
  | PositionMessage
  | OKMessage
  | ClientDisconnect
  | SharedMemory
  | OperationMode
  | ParametersMessage
  | KillMessage
  | CalibrationCompleteMessage
  | CommandMessage
  | GyroMessage
  deriving DecidableEq, Repr

/-- Command-queue operation tags from Messages.h (`_CommandOperation`). -/
inductive CommandOperation
  | Create
  | Delete
  | Update
  | Flush
  deriving DecidableEq, Repr

/-- Command types from Messages.h (`_CommandType`). -/
inductive CommandType
  | PositionCommand
  | CameraCommand
  deriving DecidableEq, Repr

/-- Latitude/longitude pair from Messages.h (`_Position`); C floats modelled as rationals. -/
structure Position where
  latitude : ℚ
  longitude : ℚ
  deriving DecidableEq, Repr

/-- Command-queue request payload from Messages.h (`_CmdMsg`). -/
structure CmdMsg where
  commandId : ℕ
  commandType : CommandType
  commandOperation : CommandOperation
  previousCommandId : ℕ
  position : Position
  deriving DecidableEq, Repr

/-- The message envelope from Messages.h.  The C payload union is modelled with
one field per variant that the embedded code reads or writes (`positionMsg`
holds the `positionMsg.position` member, `cmdMsg` the command payload). -/
structure Message where
  messageType : MessageTypes
  source : NodeName
  destination : NodeName
  positionMsg : Position
  cmdMsg : CmdMsg
  deriving DecidableEq, Repr

/-- A node of the linked command queue from Command.h (`_CommandNode`), minus
the `nextCommand` pointer, which is represented by list order. -/
structure CommandNode where
  commandId : ℕ
  commandType : CommandType
  position : Position
  deriving DecidableEq, Repr

/-- The hidden global state of Command.c: the `commandHead` linked list
(represented as a Lean list in link order), `nextCommandId`, and
`lastCommandExecuted`. -/
structure CommandQueueState where
  commandHead : List CommandNode
  nextCommandId : ℕ
  lastCommandExecuted : ℕ
  deriving DecidableEq, Repr

/-- Return value of `InsertCommand` for an insertion at the head (Command.h). -/
def HEAD_INSERT : ℕ := 1

/-- Return value of `InsertCommand` for an insertion not at the head (Command.h). -/
def NON_HEAD_INSERT : ℕ := 0

/-- `CreateNewCommandNode` from Command.c: builds a node from the `CmdMsg`,
assigning `nextCommandId` as its id (the caller increments the counter). -/
def CreateNewCommandNode (cmdMsg : CmdMsg) (nextCommandId : ℕ) : CommandNode :=
  { commandId := nextCommandId
    commandType := cmdMsg.commandType
    position := cmdMsg.position }

/-- The traversal loop of `InsertCommand` (Command.c lines 63-69): starting at
the head, advance while the current node has a successor and its id differs
from `previousCommandId`; splice the new node immediately after the stopping
node. -/
def spliceAfter (previousCommandId : ℕ) (newNode : CommandNode) :
    List CommandNode → List CommandNode
  | [] => [newNode]
  | [t] => [t, newNode]
  | t :: s :: rest =>
    if t.commandId = previousCommandId then
      t :: newNode :: s :: rest
    else
      t :: spliceAfter previousCommandId newNode (s :: rest)

/-- `InsertCommand` from Command.c: head-insert when the queue is empty or
`lastCommandExecuted` equals the message's `previousCommandId`, otherwise
splice after the scan's stopping node.  On a head insert the output `Message`
is marshalled with the new head's position, bound for TX2Nav.  Returns
(insertionType, message, new queue state). -/
def InsertCommand (cmdMsg : CmdMsg) (message : Message) (s : CommandQueueState) :
    ℕ × Message × CommandQueueState :=
  let newNode := CreateNewCommandNode cmdMsg s.nextCommandId
  if s.commandHead = [] ∨ s.lastCommandExecuted = cmdMsg.previousCommandId then
    let queue := newNode :: s.commandHead
    let message :=
      { message with
          messageType := MessageTypes.PositionMessage
          source := NodeName.TX2Master
          destination := NodeName.TX2Nav
          positionMsg := newNode.position }
    (HEAD_INSERT, message,
      { s with commandHead := queue, nextCommandId := s.nextCommandId + 1 })
  else
    (NON_HEAD_INSERT, message,
      { s with
          commandHead := spliceAfter cmdMsg.previousCommandId newNode s.commandHead
          nextCommandId := s.nextCommandId + 1 })

/-- `GetNextCommand` from Command.c: on an empty queue, target TX2Master and
return 0; otherwise pop and free the head, record its id in
`lastCommandExecuted`, and if a new head exists marshal its payload
(Position commands to TX2Nav, Camera commands to TX2Cam) and return 1, else
return 0.  Returns (return value, message, new queue state). -/
def GetNextCommand (message : Message) (s : CommandQueueState) :
    ℕ × Message × CommandQueueState :=
  match s.commandHead with
  | [] => (0, { message with destination := NodeName.TX2Master }, s)
  | popped :: rest =>
    let s := { s with commandHead := rest, lastCommandExecuted := popped.commandId }
    let message := { message with source := NodeName.TX2Master }
    match rest with
    | [] => (0, message, s)
    | newHead :: _ =>
      match newHead.commandType with
      | CommandType.PositionCommand =>
        (1, { message with
                destination := NodeName.TX2Nav
                messageType := MessageTypes.PositionMessage
                positionMsg := newHead.position }, s)
      | CommandType.CameraCommand =>
        (1, { message with
                destination := NodeName.TX2Cam
                messageType := MessageTypes.CamMessage }, s)

/-- The traversal loop of `DeleteCommand` (Command.c lines 138-140) together
with the successor test at line 143, acting on the sublist from the scan
cursor onward: advance while the cursor has a successor whose id differs
from `commandId`.  When the loop stops because the successor is NULL, the
test at line 143 dereferences `temp->nextCommand` through NULL, modelled as
`none`.  On a match the successor is spliced out. -/
def deleteScan (commandId : ℕ) : List CommandNode → Option (List CommandNode)
  | [] => none
  | [_] => none
  | t :: succ :: rest =>
    if succ.commandId = commandId then
      some (t :: rest)
    else
      (deleteScan commandId (succ :: rest)).map (t :: ·)

/-- `DeleteCommand` from Command.c.  `temp` starts at `commandHead`; when the
queue is empty the loop condition itself dereferences NULL (`none`).  When
the matching node is the head's successor (`temp == commandHead`), the
output message is marshalled for TX2Nav from `commandHead->nextCommand`,
which at that point still is the node about to be removed.  When no node
matches, the found-test dereferences NULL (`none`). -/
def DeleteCommand (cmdMsg : CmdMsg) (message : Message) (s : CommandQueueState) :
    Option (Message × CommandQueueState) :=
  match s.commandHead with
  | [] => none
  | [_] => none
  | head :: succ :: rest =>
    if succ.commandId = cmdMsg.commandId then
      let message :=
        { message with
            destination := NodeName.TX2Nav
            source := NodeName.TX2Master
            messageType := MessageTypes.PositionMessage
            positionMsg := succ.position }
      some (message, { s with commandHead := head :: rest })
    else
      (deleteScan cmdMsg.commandId (succ :: rest)).map fun l =>
        (message, { s with commandHead := head :: l })

/-- The action the master node's routing loop takes for one received message
(tx2_master.c main, lines 186-227): broadcast shutdown, forward to one
channel, silently continue (`drop`), or crash on a NULL dereference inside
`DeleteCommand`. -/
inductive RouterAction
  | shutdown
  | forwardTo (dest : NodeName) (m : Message)
  | drop
  | crash
  deriving DecidableEq, Repr

/-- The if/else-if routing chain of tx2_master.c (lines 188-227) for one
message read from a child pipe, threaded with the command-queue state.  The
order of the tests is exactly the source's: the Comm-to-Can rewrite is
checked before the kill test. -/
def routeMessage (message : Message) (s : CommandQueueState) :
    RouterAction × CommandQueueState :=
  if message.source = NodeName.TX2Comm ∧ message.destination = NodeName.TX2Can then
    (RouterAction.forwardTo NodeName.TX2Nav { message with destination := NodeName.TX2Nav }, s)
  else if message.messageType = MessageTypes.KillMessage then
    (RouterAction.shutdown, s)
  else if message.messageType = MessageTypes.CommandMessage ∧
          message.destination = NodeName.TX2Master ∧
          message.source = NodeName.TX2Nav then
    let r := GetNextCommand message s
    if r.1 = 0 then (RouterAction.drop, r.2.2)
    else (RouterAction.forwardTo r.2.1.destination r.2.1, r.2.2)
  else if message.messageType = MessageTypes.CommandMessage ∧
          message.source = NodeName.TX2Comm then
    match message.cmdMsg.commandOperation with
    | CommandOperation.Create =>
      let r := InsertCommand message.cmdMsg message s
      if r.2.1.destination ≠ NodeName.TX2Nav then (RouterAction.drop, r.2.2)
      else (RouterAction.forwardTo NodeName.TX2Nav r.2.1, r.2.2)
    | CommandOperation.Delete =>
      match DeleteCommand message.cmdMsg message s with
      | none => (RouterAction.crash, s)
      | some (m, s) =>
        if m.destination ≠ NodeName.TX2Nav then (RouterAction.drop, s)
        else (RouterAction.forwardTo NodeName.TX2Nav m, s)
    | _ =>
      if message.destination ≠ NodeName.TX2Nav then (RouterAction.drop, s)
      else (RouterAction.forwardTo NodeName.TX2Nav message, s)
  else
    (RouterAction.forwardTo message.destination message, s)

/-- The zeroed `CmdMsg` produced by `memset(&message, 0, sizeof(message))`. -/
def zeroCmdMsg : CmdMsg :=
  { commandId := 0
    commandType := CommandType.PositionCommand
    commandOperation := CommandOperation.Create
    previousCommandId := 0
    position := { latitude := 0, longitude := 0 } }

/-- The kill message the master broadcasts during shutdown (tx2_master.c lines
236-238): a zeroed envelope with `messageType = KillMessage`. -/
def killMessage : Message :=
  { messageType := MessageTypes.KillMessage
    source := NodeName.TX2Comm
    destination := NodeName.TX2Comm
    positionMsg := { latitude := 0, longitude := 0 }
    cmdMsg := zeroCmdMsg }

/-- The six child nodes, in write-pipe index order 0..5 (`writePipes[i]` is
indexed by the `nodeNames` value, tx2_master.c lines 131-132 and 235-241). -/
def childNodes : List NodeName :=
  [NodeName.TX2Comm, NodeName.TX2Can, NodeName.TX2Cam,
   NodeName.TX2Nav, NodeName.TX2Gps, NodeName.TX2Gyro]

/-- The shutdown broadcast of tx2_master.c (lines 235-241): one kill message
written to every child channel. -/
def shutdownWrites : List (NodeName × Message) :=
  childNodes.map fun n => (n, killMessage)

/-- Observable effect of handling one message in the master's loop: the pipe
writes performed, whether every channel was closed, whether the process
terminated, and whether it crashed. -/
structure RouterEffect where
  writes : List (NodeName × Message)
  closedAll : Bool
  terminated : Bool
  crashed : Bool
  deriving DecidableEq, Repr

/-- Maps the routing decision for one message to its observable effect: on
kill, the master leaves the read loop, writes a kill message to every child
pipe, closes all pipes and returns (tx2_master.c lines 231-245). -/
def routerHandle (message : Message) (s : CommandQueueState) : RouterEffect :=
  match (routeMessage message s).1 with
  | RouterAction.shutdown =>
    { writes := shutdownWrites, closedAll := true, terminated := true, crashed := false }
  | RouterAction.forwardTo dest m =>
    { writes := [(dest, m)], closedAll := false, terminated := false, crashed := false }
  | RouterAction.drop =>
    { writes := [], closedAll := false, terminated := false, crashed := false }
  | RouterAction.crash =>
    { writes := [], closedAll := false, terminated := false, crashed := true }

/-- The `previousValues` struct from FilterGen.h: a ring buffer of scalars
with logical `count`, write index `head`, and capacity `maxCount`.  The
fixed C backing array `values[VALUES_TO_AVG]` is modelled as a total map
from index to stored value. -/
structure PreviousValues where
  count : ℕ
  head : ℕ
  maxCount : ℕ
  values : ℕ → ℚ

/-- `EnterNewValue` from FilterGen.c: saturate `count` at `maxCount`, store
the value at `head`, and advance `head` circularly mod `maxCount`. -/
def EnterNewValue (previousValues : PreviousValues) (value : ℚ) : PreviousValues :=
  let count :=
    if previousValues.count < previousValues.maxCount then previousValues.count + 1
    else previousValues.count
  { previousValues with
      count := count
      values := Function.update previousValues.values previousValues.head value
      head := (previousValues.head + 1) % previousValues.maxCount }

/-- `ClearValues` from FilterGen.c: reset `head` and `count` to 0, leaving the
backing storage untouched. -/
def ClearValues (previousValues : PreviousValues) : PreviousValues :=
  { previousValues with head := 0, count := 0 }

/-- `EnoughDataPresent` from FilterGen.c: 1 iff `count == maxCount`. -/
def EnoughDataPresent (previousValues : PreviousValues) : Bool :=
  previousValues.count == previousValues.maxCount

/-- `GetMovingAverage` from FilterGen.c: sum of `values[0..count-1]` divided
by `count` (the loop reads the backing array in index order, not in ring
order). -/
def GetMovingAverage (previousValues : PreviousValues) : ℚ :=
  (∑ i ∈ Finset.range previousValues.count, previousValues.values i) / previousValues.count

/-- Feeding a list of values into a buffer in order, one `EnterNewValue` per
element. -/
def enterAll (previousValues : PreviousValues) (vs : List ℚ) : PreviousValues :=
  vs.foldl EnterNewValue previousValues

/-- A fresh moving-average buffer of capacity `k` after `SetMaxCount`
(FilterGen.c): zero count and head, zeroed backing storage. -/
def initBuf (k : ℕ) : PreviousValues :=
  { count := 0, head := 0, maxCount := k, values := fun _ => 0 }

/-- The `NOT_GULF_OF_GUINEA` macro of tx2_nav_node.c: a position is valid
unless it is the (0,0) sentinel. -/
def NOT_GULF_OF_GUINEA (p : Position) : Bool :=
  decide (¬(p.latitude = 0) ∨ ¬(p.longitude = 0))

/-- The `canIMove` computation of MoveRover (tx2_nav_node.c): without GPS the
only test is `EnoughDataPresent(&leftValues)`; with GPS it additionally
requires not being at the destination and non-sentinel current and
destination positions.  Only the left buffer is consulted. -/
def canIMove (usingGps : Bool) (leftValues : PreviousValues) (atDestination : Bool)
    (currentPosition destinationPosition : Position) : Bool :=
  if !usingGps then
    EnoughDataPresent leftValues
  else
    EnoughDataPresent leftValues && !atDestination &&
      NOT_GULF_OF_GUINEA currentPosition && NOT_GULF_OF_GUINEA destinationPosition

/-- Navigation states of tx2_nav_node.c (`navigationStates`). -/
inductive NavigationStates
  | Stopped
  | MovingForward
  | TurningLeft
  | TurningRight
  deriving DecidableEq, Repr

/-- The CAN direction value held in `message.canMsg.Message[0]` by MoveRover:
`NO_VALUE` (-1) or one of the protocol.h direction codes. -/
inductive Direction
  | noValue
  | moveForward
  | moveLeft
  | moveRight
  deriving DecidableEq, Repr

/-- The state-transition switch of MoveRover (tx2_nav_node.c lines 1204-1255),
given the incoming `directionCount` value `d0` and the (already weighted)
center/left/right moving averages.  Returns the new navigation state, the
direction written into the CAN message, and the resulting `directionCount`. -/
def moveRoverSwitch (currentState : NavigationStates) (d0 : ℕ)
    (dotProductThreshold centerAverage leftAverage rightAverage : ℚ) :
    NavigationStates × Direction × ℕ :=
  match currentState with
  | NavigationStates.Stopped => (NavigationStates.MovingForward, Direction.noValue, d0)
  | NavigationStates.MovingForward =>
    if centerAverage < dotProductThreshold ∧ centerAverage < leftAverage ∧
        centerAverage < rightAverage then
      (NavigationStates.MovingForward, Direction.moveForward, 1)
    else if leftAverage < rightAverage then
      (NavigationStates.TurningLeft, Direction.moveLeft, d0)
    else if rightAverage < leftAverage then
      (NavigationStates.TurningRight, Direction.moveRight, d0)
    else
      (NavigationStates.MovingForward, Direction.noValue, 0)
  | NavigationStates.TurningLeft =>
    if centerAverage < dotProductThreshold then
      (NavigationStates.MovingForward, Direction.moveForward, 1)
    else
      (NavigationStates.TurningLeft, Direction.moveLeft, 1)
  | NavigationStates.TurningRight =>
    if centerAverage < dotProductThreshold then
      (NavigationStates.MovingForward, Direction.moveForward, 1)
    else
      (NavigationStates.TurningRight, Direction.moveRight, 1)

/-- Number of writes performed by the single-command branch of MoveRover
(tx2_nav_node.c lines 1268-1271): one write iff the message holds a value
and `directionCount == 1`. -/
def singleWriteCount (direction : Direction) (directionCount : ℕ) : ℕ :=
  if direction ≠ Direction.noValue ∧ directionCount = 1 then 1 else 0

/-- Whether MoveRover falls into the multi-turn loop instead (tx2_nav_node.c
line 1272): a left/right message that was not already written by the
single-command branch. -/
def entersMultiTurn (direction : Direction) (directionCount : ℕ) : Bool :=
  decide ((direction = Direction.moveLeft ∨ direction = Direction.moveRight) ∧
    ¬(direction ≠ Direction.noValue ∧ directionCount = 1))

/-- One Position shared region (SharedMem.h): the two header flags plus the
`Position` payload behind the header. -/
structure SharedPositionRegion where
  dataAvailableFlag : Bool
  currentlyBeingAccessed : Bool
  payload : Position
  deriving DecidableEq, Repr

/-- The producer-side `SET_SHARED_POSITION` macro (SharedMem.h lines 57-60):
`while (mem->currentlyBeingAccessed);` then write the payload and set
`dataAvailableFlag`.  With no concurrent consumer step to clear the flag,
a set `currentlyBeingAccessed` leaves the producer spinning, modelled as
`none`; otherwise the write proceeds. -/
def SET_SHARED_POSITION (mem : SharedPositionRegion) (val : Position) :
    Option SharedPositionRegion :=
  if mem.currentlyBeingAccessed then none
  else some { mem with payload := val, dataAvailableFlag := true }

/-- The busy-wait loop of the consumer-side `GET_SHARED_ANGLE` macro
(SharedMem.h line 49): `while (0 == mem->dataAvailableFlag);`.  `flags n`
is the value of `dataAvailableFlag` the consumer observes at its n-th poll;
the loop is run with explicit fuel and returns the index of the poll at
which it exited, or `none` if the fuel ran out first. -/
def getSharedAngleLoop (flags : ℕ → Bool) : ℕ → ℕ → Option ℕ
  | _, 0 => none
  | start, fuel + 1 =>
    if flags start then some start else getSharedAngleLoop flags (start + 1) fuel

/-- Termination of the `GET_SHARED_ANGLE` busy-wait: some finite amount of
fuel suffices for the loop to exit. -/
def angleReadTerminates (flags : ℕ → Bool) : Prop :=
  ∃ fuel, (getSharedAngleLoop flags 0 fuel).isSome

/-- A zeroed message envelope, as produced by `memset(&message, 0, ...)`. -/
def zeroMessage : Message :=
  { messageType := MessageTypes.CANMessage
    source := NodeName.TX2Comm
    destination := NodeName.TX2Comm
    positionMsg := { latitude := 0, longitude := 0 }
    cmdMsg := zeroCmdMsg }

/-- The initial command-queue state of Command.c: empty list, next id 1, last
popped 0. -/
def emptyQueue : CommandQueueState :=
  { commandHead := [], nextCommandId := 1, lastCommandExecuted := 0 }

/-- Scenario A command: `cmd{id_after=0, position=(10,20)}`. -/
def scenarioACmd : CmdMsg :=
  { commandId := 0
    commandType := CommandType.PositionCommand
    commandOperation := CommandOperation.Create
    previousCommandId := 0
    position := { latitude := 10, longitude := 20 } }

/-- Scenario B queue node A with id 1. -/
def nodeA : CommandNode :=
  { commandId := 1
    commandType := CommandType.PositionCommand
    position := { latitude := 1, longitude := 2 } }

/-- Scenario B queue node B with id 2. -/
def nodeB : CommandNode :=
  { commandId := 2
    commandType := CommandType.PositionCommand
    position := { latitude := 3, longitude := 4 } }

/-- Scenario B queue `[A(id=1), B(id=2)]` with no pop performed yet. -/
def scenarioBQueue : CommandQueueState :=
  { commandHead := [nodeA, nodeB], nextCommandId := 3, lastCommandExecuted := 0 }

/-- A delete request for command id 2, used to exercise `DeleteCommand`. -/
def deleteId2Cmd : CmdMsg := { zeroCmdMsg with commandId := 2 }

theorem spliceAfter_length (cid : ℕ) (nw : CommandNode) :
    ∀ l : List CommandNode, (spliceAfter cid nw l).length = l.length + 1
  | [] => rfl
  | [_] => rfl
  | t :: s :: rest => by
    simp only [spliceAfter]
    by_cases ht : t.commandId = cid
    · simp [ht]
    · simp only [if_neg ht, List.length_cons, spliceAfter_length cid nw (s :: rest)]

theorem spliceAfter_not_found (cid : ℕ) (nw : CommandNode) :
    ∀ l : List CommandNode, (∀ n ∈ l, n.commandId ≠ cid) →
      spliceAfter cid nw l = l ++ [nw]
  | [], _ => rfl
  | [_], _ => rfl
  | t :: s :: rest, h => by
    simp only [spliceAfter, if_neg (h t (List.mem_cons_self t _))]
    rw [spliceAfter_not_found cid nw (s :: rest)
      (fun n hn => h n (List.mem_cons_of_mem t hn))]
    simp

theorem spliceAfter_first_match (cid : ℕ) (nw : CommandNode) :
    ∀ (l₁ : List CommandNode) (t : CommandNode) (l₂ : List CommandNode),
      t.commandId = cid → (∀ n ∈ l₁, n.commandId ≠ cid) →
      spliceAfter cid nw (l₁ ++ t :: l₂) = l₁ ++ t :: nw :: l₂
  | [], t, [], ht, _ => by simp [spliceAfter, ht]
  | [], t, _ :: _, ht, _ => by simp [spliceAfter, ht]
  | a :: l₁, t, l₂, ht, h => by
    have hne : l₁ ++ t :: l₂ ≠ [] := by simp
    obtain ⟨s, rest, hl⟩ : ∃ s rest, l₁ ++ t :: l₂ = s :: rest := by
      cases hx : l₁ ++ t :: l₂ with
      | nil => exact absurd hx hne
      | cons s rest => exact ⟨s, rest, rfl⟩
    rw [List.cons_append, hl, spliceAfter, if_neg (h a (List.mem_cons_self a _)), ← hl,
      spliceAfter_first_match cid nw l₁ t l₂ ht
        (fun n hn => h n (List.mem_cons_of_mem a hn))]
    rfl

/-- Claim C2: `InsertCommand` returns `HEAD_INSERT` and places the new node at
the head exactly when the queue is empty or `previousCommandId` equals the
most recently popped id; otherwise it returns `NON_HEAD_INSERT` and splices
the new node immediately after the first node with `commandId =
previousCommandId` (or after the last node when none matches); the queue
length always grows by exactly one; a head insert marshals a Nav-bound
`PositionMessage` carrying the inserted command's position; and in Scenario
A (empty queue, position (10,20)) the result is a head insert whose message
carries (10,20). -/
theorem insertCommand_spec (cmdMsg : CmdMsg) (msg : Message) (s : CommandQueueState) :
    ((InsertCommand cmdMsg msg s).1 = HEAD_INSERT ↔
      (s.commandHead = [] ∨ s.lastCommandExecuted = cmdMsg.previousCommandId)) ∧
    ((InsertCommand cmdMsg msg s).1 = HEAD_INSERT ∨
      (InsertCommand cmdMsg msg s).1 = NON_HEAD_INSERT) ∧
    (InsertCommand cmdMsg msg s).2.2.commandHead.length = s.commandHead.length + 1 ∧
    ((InsertCommand cmdMsg msg s).1 = HEAD_INSERT →
      (InsertCommand cmdMsg msg s).2.2.commandHead =
        CreateNewCommandNode cmdMsg s.nextCommandId :: s.commandHead ∧
      (InsertCommand cmdMsg msg s).2.1.messageType = MessageTypes.PositionMessage ∧
      (InsertCommand cmdMsg msg s).2.1.destination = NodeName.TX2Nav ∧
      (InsertCommand cmdMsg msg s).2.1.positionMsg = cmdMsg.position) ∧
    ((InsertCommand cmdMsg msg s).1 = NON_HEAD_INSERT →
      ((∀ n ∈ s.commandHead, n.commandId ≠ cmdMsg.previousCommandId) →
        (InsertCommand cmdMsg msg s).2.2.commandHead =
          s.commandHead ++ [CreateNewCommandNode cmdMsg s.nextCommandId]) ∧
      (∀ l₁ t l₂, s.commandHead = l₁ ++ t :: l₂ →
        t.commandId = cmdMsg.previousCommandId →
        (∀ n ∈ l₁, n.commandId ≠ cmdMsg.previousCommandId) →
        (InsertCommand cmdMsg msg s).2.2.commandHead =
          l₁ ++ t :: CreateNewCommandNode cmdMsg s.nextCommandId :: l₂)) ∧
    (InsertCommand scenarioACmd zeroMessage emptyQueue).1 = HEAD_INSERT ∧
    (InsertCommand scenarioACmd zeroMessage emptyQueue).2.1.positionMsg =
      { latitude := 10, longitude := 20 } := by
  by_cases hc : s.commandHead = [] ∨ s.lastCommandExecuted = cmdMsg.previousCommandId
  · have he : InsertCommand cmdMsg msg s =
        (HEAD_INSERT,
         { msg with
             messageType := MessageTypes.PositionMessage
             source := NodeName.TX2Master
             destination := NodeName.TX2Nav
             positionMsg := (CreateNewCommandNode cmdMsg s.nextCommandId).position },
         { s with
             commandHead := CreateNewCommandNode cmdMsg s.nextCommandId :: s.commandHead
             nextCommandId := s.nextCommandId + 1 }) := by
      simp only [InsertCommand, if_pos hc]
    rw [he]
    exact ⟨⟨fun _ => hc, fun _ => rfl⟩, Or.inl rfl, by simp, fun _ => ⟨rfl, rfl, rfl, rfl⟩,
      fun h => absurd h (by simp [HEAD_INSERT, NON_HEAD_INSERT]), by decide, by decide⟩
  · have he : InsertCommand cmdMsg msg s =
        (NON_HEAD_INSERT, msg,
         { s with
             commandHead :=
               spliceAfter cmdMsg.previousCommandId (CreateNewCommandNode cmdMsg s.nextCommandId)
                 s.commandHead
             nextCommandId := s.nextCommandId + 1 }) := by
      simp only [InsertCommand, if_neg hc]
    rw [he]
    refine ⟨⟨fun h => absurd h (by simp [HEAD_INSERT, NON_HEAD_INSERT]), fun h => absurd h hc⟩,
      Or.inr rfl, by simp [spliceAfter_length],
      fun h => absurd h (by simp [HEAD_INSERT, NON_HEAD_INSERT]),
      fun _ => ⟨?_, ?_⟩, by decide, by decide⟩
    · intro h
      show spliceAfter _ _ _ = _
      rw [spliceAfter_not_found cmdMsg.previousCommandId _ s.commandHead h]
    · intro l₁ t l₂ hsplit hmatch hbefore
      show spliceAfter _ _ _ = _
      rw [hsplit, spliceAfter_first_match cmdMsg.previousCommandId _ l₁ t l₂ hmatch hbefore]

/-- Witness for C2: Scenario A itself — inserting into the empty queue yields
a head insert whose synthesized message carries position (10,20). -/
theorem insertCommand_spec_witness :
    (InsertCommand scenarioACmd zeroMessage emptyQueue).1 = HEAD_INSERT ∧
    (InsertCommand scenarioACmd zeroMessage emptyQueue).2.1.positionMsg =
      { latitude := 10, longitude := 20 } :=
  ⟨(insertCommand_spec scenarioACmd zeroMessage emptyQueue).1.mpr (Or.inl rfl),
   (insertCommand_spec scenarioACmd zeroMessage emptyQueue).2.2.2.2.2.2⟩

/-- Claim C3: `GetNextCommand` on an empty queue returns 0 (None) targeting
TX2Master; on a non-empty queue it removes the head, records its id as last
popped, and when a new head exists returns 1 with its payload marshalled
(Position commands to TX2Nav, Camera commands to TX2Cam), else returns 0;
in Scenario B, popping `[A(id=1), B(id=2)]` returns B's payload, leaves
`[B(id=2)]`, and sets last-popped to 1. -/
theorem getNextCommand_spec (msg : Message) (s : CommandQueueState) :
    (s.commandHead = [] →
      GetNextCommand msg s = (0, { msg with destination := NodeName.TX2Master }, s)) ∧
    (∀ popped rest, s.commandHead = popped :: rest →
      (GetNextCommand msg s).2.2.commandHead = rest ∧
      (GetNextCommand msg s).2.2.lastCommandExecuted = popped.commandId ∧
      (rest = [] → (GetNextCommand msg s).1 = 0) ∧
      (∀ newHead t, rest = newHead :: t →
        (GetNextCommand msg s).1 = 1 ∧
        (newHead.commandType = CommandType.PositionCommand →
          (GetNextCommand msg s).2.1.destination = NodeName.TX2Nav ∧
          (GetNextCommand msg s).2.1.messageType = MessageTypes.PositionMessage ∧
          (GetNextCommand msg s).2.1.positionMsg = newHead.position) ∧
        (newHead.commandType = CommandType.CameraCommand →
          (GetNextCommand msg s).2.1.destination = NodeName.TX2Cam ∧
          (GetNextCommand msg s).2.1.messageType = MessageTypes.CamMessage))) ∧
    (GetNextCommand zeroMessage scenarioBQueue).1 = 1 ∧
    (GetNextCommand zeroMessage scenarioBQueue).2.1.positionMsg = nodeB.position ∧
    (GetNextCommand zeroMessage scenarioBQueue).2.2.commandHead = [nodeB] ∧
    (GetNextCommand zeroMessage scenarioBQueue).2.2.lastCommandExecuted = 1 := by
  refine ⟨fun h => ?_, fun popped rest hq => ?_, by decide, by decide, by decide, by decide⟩
  · simp [GetNextCommand, h]
  · cases rest with
    | nil =>
      refine ⟨?_, ?_, fun _ => ?_, fun newHead t ht => by simp at ht⟩ <;>
        simp [GetNextCommand, hq]
    | cons newHead t =>
      refine ⟨?_, ?_, fun h => by simp at h, fun nh tt htt => ?_⟩
      · cases hk : newHead.commandType <;> simp [GetNextCommand, hq, hk]
      · cases hk : newHead.commandType <;> simp [GetNextCommand, hq, hk]
      · obtain ⟨rfl, rfl⟩ : nh = newHead ∧ tt = t := by
          constructor <;> injection htt <;> simp [*]
        refine ⟨?_, fun hp => ?_, fun hp => ?_⟩
        · cases hk : nh.commandType <;> simp [GetNextCommand, hq, hk]
        · exact ⟨by simp [GetNextCommand, hq, hp], by simp [GetNextCommand, hq, hp],
            by simp [GetNextCommand, hq, hp]⟩
        · exact ⟨by simp [GetNextCommand, hq, hp], by simp [GetNextCommand, hq, hp]⟩

/-- Witness for C3: Scenario B — popping the two-element queue returns 1 with
B's payload, leaves `[B]`, and records last-popped id 1. -/
theorem getNextCommand_spec_witness :
    (GetNextCommand zeroMessage scenarioBQueue).1 = 1 ∧
    (GetNextCommand zeroMessage scenarioBQueue).2.2.commandHead = [nodeB] :=
  ⟨(getNextCommand_spec zeroMessage scenarioBQueue).2.2.1,
   (getNextCommand_spec zeroMessage scenarioBQueue).2.2.2.2.1⟩

theorem deleteScan_not_found (cid : ℕ) :
    ∀ l : List CommandNode, (∀ n ∈ l, n.commandId ≠ cid) →
      deleteScan cid l = none
  | [], _ => rfl
  | [_], _ => rfl
  | t :: succ :: rest, h => by
    simp only [deleteScan, if_neg (h succ (List.mem_cons_of_mem t (List.mem_cons_self succ _))),
      deleteScan_not_found cid (succ :: rest) (fun n hn => h n (List.mem_cons_of_mem t hn)),
      Option.map_none']

theorem deleteScan_some_shape (cid : ℕ) :
    ∀ l l₂ : List CommandNode, deleteScan cid l = some l₂ →
      l₂.head? = l.head? ∧ l₂.length + 1 = l.length
  | [], _, h => by simp [deleteScan] at h
  | [_], _, h => by simp [deleteScan] at h
  | t :: succ :: rest, l₂, h => by
    by_cases hs : succ.commandId = cid
    · simp only [deleteScan, if_pos hs, Option.some_inj] at h
      subst h
      simp
    · simp only [deleteScan, if_neg hs, Option.map_eq_some'] at h
      obtain ⟨l₃, hl₃, rfl⟩ := h
      have := (deleteScan_some_shape cid (succ :: rest) l₃ hl₃).2
      simp_all

/-- Claim C4: on every input whose id is absent from the queue — the empty
queue included — `DeleteCommand` dereferences a NULL pointer (the loop
condition reads `temp->nextCommand` through a NULL `commandHead`, or the
found-test at line 143 reads `temp->nextCommand->commandId` after the scan
ran off the end), modelled as the `none` outcome: the source provides
neither a no-op nor a not-found result value. -/
theorem deleteCommand_not_found_crashes (cmdMsg : CmdMsg) (msg : Message)
    (s : CommandQueueState)
    (h : ∀ n ∈ s.commandHead, n.commandId ≠ cmdMsg.commandId) :
    DeleteCommand cmdMsg msg s = none := by
  match hq : s.commandHead with
  | [] => simp [DeleteCommand, hq]
  | [t] => simp [DeleteCommand, hq]
  | t :: succ :: rest =>
    rw [hq] at h
    simp only [DeleteCommand, hq,
      if_neg (h succ (List.mem_cons_of_mem t (List.mem_cons_self succ _))),
      deleteScan_not_found cmdMsg.commandId (succ :: rest)
        (fun n hn => h n (List.mem_cons_of_mem t hn)),
      Option.map_none']

/-- Witness for C4: deleting id 2 from the empty queue hits the NULL
dereference (`none`). -/
theorem deleteCommand_not_found_crashes_witness :
    DeleteCommand deleteId2Cmd zeroMessage emptyQueue = none :=
  deleteCommand_not_found_crashes deleteId2Cmd zeroMessage emptyQueue (by decide)

/-- Claim C10: whenever `DeleteCommand` completes without crashing, the head
node is untouched — the scan compares only successor ids, so the resulting
queue begins with the same head node and is exactly one node shorter. -/
theorem deleteCommand_preserves_head (cmdMsg : CmdMsg) (msg : Message)
    (s : CommandQueueState) (m : Message) (s₂ : CommandQueueState)
    (h : DeleteCommand cmdMsg msg s = some (m, s₂)) :
    s₂.commandHead.head? = s.commandHead.head? ∧
    s₂.commandHead.length + 1 = s.commandHead.length := by
  match hq : s.commandHead with
  | [] => rw [DeleteCommand, hq] at h; simp at h
  | [t] => rw [DeleteCommand, hq] at h; simp at h
  | t :: succ :: rest =>
    simp only [DeleteCommand, hq] at h
    by_cases hs : succ.commandId = cmdMsg.commandId
    · rw [if_pos hs, Option.some_inj] at h
      have hs₂ : s₂.commandHead = t :: rest := by
        have := congrArg (fun p => p.2.commandHead) h
        simpa using this.symm
      rw [hs₂]
      simp
    · rw [if_neg hs, Option.map_eq_some'] at h
      obtain ⟨l₃, hl₃, hpair⟩ := h
      have hshape := (deleteScan_some_shape cmdMsg.commandId (succ :: rest) l₃ hl₃).2
      have hs₂ : s₂.commandHead = t :: l₃ := by
        have := congrArg (fun p => p.2.commandHead) hpair
        simpa using this.symm
      rw [hs₂]
      refine ⟨by simp, ?_⟩
      simp only [List.length_cons] at hshape ⊢
      omega

/-- Witness for C10: deleting id 2 from `[A(id=1), B(id=2)]` keeps A as the
head and shortens the queue by one. -/
theorem deleteCommand_preserves_head_witness :
    ([nodeA] : List CommandNode).head? = ([nodeA, nodeB] : List CommandNode).head? ∧
    ([nodeA] : List CommandNode).length + 1 = ([nodeA, nodeB] : List CommandNode).length := by
  have h := deleteCommand_preserves_head deleteId2Cmd zeroMessage scenarioBQueue
    { zeroMessage with
        destination := NodeName.TX2Nav
        source := NodeName.TX2Master
        messageType := MessageTypes.PositionMessage
        positionMsg := nodeB.position }
    { scenarioBQueue with commandHead := [nodeA] } (by decide)
  exact h

theorem enterAll_concat (p : PreviousValues) (vs : List ℚ) (v : ℚ) :
    enterAll p (vs ++ [v]) = EnterNewValue (enterAll p vs) v := by
  simp [enterAll, List.foldl_append]

theorem sum_range_getD (l : List ℚ) :
    ∑ i ∈ Finset.range l.length, l.getD i 0 = l.sum := by
  induction l with
  | nil => simp
  | cons a t ih =>
    rw [List.length_cons, Finset.sum_range_succ']
    simp only [List.getD_cons_succ, List.getD_cons_zero, List.sum_cons, ih]
    ring

theorem enterAll_state (k : ℕ) (vs : List ℚ) (hle : vs.length ≤ k) :
    enterAll (initBuf k) vs =
      { count := vs.length, head := vs.length % k, maxCount := k,
        values := fun i => vs.getD i 0 } := by
  induction vs using List.reverseRecOn with
  | nil =>
    simp only [enterAll, List.foldl_nil, initBuf, List.length_nil, Nat.zero_mod]
    refine congrArg _ ?_
    funext i
    simp
  | append_singleton vs v ih =>
    rw [List.length_append] at hle
    simp only [List.length_singleton] at hle
    have hlt : vs.length < k := by omega
    rw [enterAll_concat, ih (Nat.le_of_lt hlt)]
    simp only [EnterNewValue, Nat.mod_eq_of_lt hlt, if_pos hlt, List.length_append,
      List.length_singleton]
    refine congrArg _ ?_
    funext i
    by_cases hi : i = vs.length
    · subst hi
      rw [Function.update_same]
      rw [List.getD_eq_getElem?_getD, List.getElem?_append_right (le_refl _)]
      simp
    · rw [Function.update_noteq hi]
      rcases Nat.lt_or_ge i vs.length with hlt₂ | hge
      · simp [List.getD_eq_getElem?_getD, List.getElem?_append_left hlt₂]
      · have hgt : vs.length < i := by omega
        have h1 : vs.getD i 0 = 0 := List.getD_eq_default _ _ (by omega)
        have h2 : (vs ++ [v]).getD i 0 = 0 := by
          refine List.getD_eq_default _ _ ?_
          simp only [List.length_append, List.length_singleton]
          omega
        rw [h1, h2]

/-- Claim C7: filling a capacity-k buffer with values v1..vk makes
`GetMovingAverage` return their arithmetic mean, and entering one further
value evicts v1, so the next average is the mean of v2..v(k+1). -/
theorem movingAverage_window_spec (k : ℕ) (vs : List ℚ) (hk : 1 ≤ k)
    (hlen : vs.length = k) :
    GetMovingAverage (enterAll (initBuf k) vs) = vs.sum / k ∧
    ∀ v : ℚ, GetMovingAverage (EnterNewValue (enterAll (initBuf k) vs) v) =
      (vs.tail ++ [v]).sum / k := by
  have hstate := enterAll_state k vs (le_of_eq hlen)
  constructor
  · rw [hstate]
    simp only [GetMovingAverage, hlen]
    rw [← hlen, sum_range_getD]
  · intro v
    obtain ⟨a, t, rfl⟩ : ∃ a t, vs = a :: t := by
      cases vs with
      | nil => simp at hlen; omega
      | cons a t => exact ⟨a, t, rfl⟩
    have hstate₂ : enterAll (initBuf k) (a :: t) =
        { count := k, head := 0, maxCount := k,
          values := fun i => (a :: t).getD i 0 } := by
      rw [hstate, hlen, Nat.mod_self]
    rw [hstate₂]
    simp only [EnterNewValue, lt_irrefl, ite_false, GetMovingAverage]
    have hk1 : k = t.length + 1 := by
      simp only [List.length_cons] at hlen
      omega
    rw [hk1, Finset.sum_range_succ']
    have h0 : Function.update (fun i => (a :: t).getD i 0) 0 v 0 = v := by
      simp
    have hsucc : ∀ i : ℕ,
        Function.update (fun i => (a :: t).getD i 0) 0 v (i + 1) = t.getD i 0 := by
      intro i
      rw [Function.update_noteq (Nat.succ_ne_zero i)]
      simp
    simp only [h0, hsucc, sum_range_getD, List.tail_cons]
    rw [List.sum_append, List.sum_cons, List.sum_nil]
    ring

/-- Witness for C7: with capacity 2, feeding 1 and 2 averages to 3/2; feeding
a further 3 evicts the 1, averaging 2 and 3 to 5/2. -/
theorem movingAverage_window_spec_witness :
    GetMovingAverage (enterAll (initBuf 2) [1, 2]) = 3 / 2 ∧
    GetMovingAverage (EnterNewValue (enterAll (initBuf 2) [1, 2]) 3) = 5 / 2 :=
  ⟨((movingAverage_window_spec 2 [1, 2] (by norm_num) rfl).1).trans (by norm_num),
   (((movingAverage_window_spec 2 [1, 2] (by norm_num) rfl).2) 3).trans (by norm_num)⟩

/-- Counterexample for C5: the movement gate consults only the left buffer.
In a state whose left buffer is full but whose center buffer holds no data
at all, `canIMove` (GPS disabled) still permits movement, so movement is
not gated on `enough_data` for all three buffers as claimed. -/
theorem canIMove_ignores_center_buffer :
    canIMove false { count := 2, head := 0, maxCount := 2, values := fun _ => 0 } false
        { latitude := 0, longitude := 0 } { latitude := 0, longitude := 0 } = true ∧
    EnoughDataPresent { count := 0, head := 0, maxCount := 2, values := fun _ => 0 } = false :=
  ⟨rfl, rfl⟩

/-- Claim C5 (amended): `canIMove` permits movement exactly when the left
buffer reports `enough_data` (the center and right buffers are not
consulted) and, when GPS is enabled, additionally the engine is not at the
destination and both the current and destination positions differ from the
(0,0) sentinel. -/
theorem canIMove_spec (usingGps : Bool) (leftValues : PreviousValues)
    (atDestination : Bool) (currentPosition destinationPosition : Position) :
    canIMove usingGps leftValues atDestination currentPosition destinationPosition = true ↔
      (leftValues.count = leftValues.maxCount ∧
        (usingGps = true →
          atDestination = false ∧
          ¬(currentPosition.latitude = 0 ∧ currentPosition.longitude = 0) ∧
          ¬(destinationPosition.latitude = 0 ∧ destinationPosition.longitude = 0))) := by
  cases usingGps <;> cases atDestination <;>
    · simp [canIMove, EnoughDataPresent, NOT_GULF_OF_GUINEA]
      try tauto

/-- Witness for C5 (amended): with GPS enabled, a full left buffer, distinct
non-sentinel positions and not at destination, the gate opens. -/
theorem canIMove_spec_witness :
    canIMove true { count := 2, head := 0, maxCount := 2, values := fun _ => 0 } false
      { latitude := 1, longitude := 2 } { latitude := 3, longitude := 4 } = true :=
  (canIMove_spec true { count := 2, head := 0, maxCount := 2, values := fun _ => 0 } false
    { latitude := 1, longitude := 2 } { latitude := 3, longitude := 4 }).mpr
    ⟨rfl, fun _ => ⟨rfl, by norm_num, by norm_num⟩⟩

/-- Claim C6: in `MovingForward` with movement permitted, a weighted center
average below the threshold and strictly below both sides keeps the state
`MovingForward` and emits exactly one forward command (no multi-turn);
otherwise the state becomes `TurningLeft` when left < right and
`TurningRight` when right < left; on a tie no command is emitted and the
state is unchanged; Scenario C (center 0.2, threshold 0.5, left 0.6, right
0.7) stays `MovingForward` with one forward command. -/
theorem moveRoverSwitch_movingForward_spec (d0 : ℕ) (threshold c l r : ℚ) :
    (c < threshold ∧ c < l ∧ c < r →
      moveRoverSwitch NavigationStates.MovingForward d0 threshold c l r =
        (NavigationStates.MovingForward, Direction.moveForward, 1) ∧
      singleWriteCount Direction.moveForward 1 = 1 ∧
      entersMultiTurn Direction.moveForward 1 = false) ∧
    (¬(c < threshold ∧ c < l ∧ c < r) → l < r →
      (moveRoverSwitch NavigationStates.MovingForward d0 threshold c l r).1 =
        NavigationStates.TurningLeft) ∧
    (¬(c < threshold ∧ c < l ∧ c < r) → r < l →
      (moveRoverSwitch NavigationStates.MovingForward d0 threshold c l r).1 =
        NavigationStates.TurningRight) ∧
    (¬(c < threshold ∧ c < l ∧ c < r) → l = r →
      moveRoverSwitch NavigationStates.MovingForward d0 threshold c l r =
        (NavigationStates.MovingForward, Direction.noValue, 0) ∧
      singleWriteCount Direction.noValue 0 = 0 ∧
      entersMultiTurn Direction.noValue 0 = false) ∧
    moveRoverSwitch NavigationStates.MovingForward 1 (1 / 2) (1 / 5) (3 / 5) (7 / 10) =
      (NavigationStates.MovingForward, Direction.moveForward, 1) := by
  refine ⟨fun h => ?_, fun hn hl => ?_, fun hn hr => ?_, fun hn he => ?_, ?_⟩
  · exact ⟨by simp [moveRoverSwitch, if_pos h], by decide, by decide⟩
  · simp [moveRoverSwitch, if_neg hn, if_pos hl]
  · have hnl : ¬(l < r) := by
      intro hlr
      exact absurd rfl (ne_of_gt (hlr.trans hr))
    simp [moveRoverSwitch, if_neg hn, if_neg hnl, if_pos hr]
  · subst he
    refine ⟨?_, by decide, by decide⟩
    simp only [moveRoverSwitch]
    rw [if_neg hn, if_neg (lt_irrefl l), if_neg (lt_irrefl l)]
  · have h : (1 : ℚ) / 5 < 1 / 2 ∧ (1 : ℚ) / 5 < 3 / 5 ∧ (1 : ℚ) / 5 < 7 / 10 := by
      norm_num
    simp only [moveRoverSwitch]
    rw [if_pos h]

/-- Witness for C6: Scenario C — the decision at center 1/5, threshold 1/2,
left 3/5, right 7/10 stays forward, writing exactly one command. -/
theorem moveRoverSwitch_movingForward_spec_witness :
    moveRoverSwitch NavigationStates.MovingForward 1 (1 / 2) (1 / 5) (3 / 5) (7 / 10) =
      (NavigationStates.MovingForward, Direction.moveForward, 1) ∧
    singleWriteCount Direction.moveForward 1 = 1 ∧
    entersMultiTurn Direction.moveForward 1 = false :=
  (moveRoverSwitch_movingForward_spec 1 (1 / 2) (1 / 5) (3 / 5) (7 / 10)).1
    (by norm_num)

/-- Counterexample for C1: the Comm-to-Can rewrite is tested before the kill
test, so a Kill message with source Comm and destination Can is rewritten
to destination Nav and forwarded — the router does not enter shutdown. -/
theorem routeMessage_kill_comm_to_can_forwarded :
    (routeMessage { killMessage with
        source := NodeName.TX2Comm, destination := NodeName.TX2Can } emptyQueue).1 =
      RouterAction.forwardTo NodeName.TX2Nav
        { killMessage with source := NodeName.TX2Comm, destination := NodeName.TX2Nav } ∧
    (routeMessage { killMessage with
        source := NodeName.TX2Comm, destination := NodeName.TX2Can } emptyQueue).1 ≠
      RouterAction.shutdown ∧
    (routerHandle { killMessage with
        source := NodeName.TX2Comm, destination := NodeName.TX2Can } emptyQueue).terminated =
      false := by
  refine ⟨rfl, ?_, rfl⟩
  intro h
  simp [routeMessage, killMessage] at h

/-- Claim C1 (amended): for every Kill message except one whose source is Comm
and destination is Can (which is rewritten to Nav and forwarded instead),
the router enters shutdown: it performs no ordinary forward, writes one
Kill message to every child node channel, closes all channels, and
terminates. -/
theorem routeMessage_kill_shutdown (m : Message) (s : CommandQueueState)
    (hkill : m.messageType = MessageTypes.KillMessage)
    (hnot : ¬(m.source = NodeName.TX2Comm ∧ m.destination = NodeName.TX2Can)) :
    routeMessage m s = (RouterAction.shutdown, s) ∧
    routerHandle m s =
      { writes := shutdownWrites, closedAll := true, terminated := true, crashed := false } ∧
    (∀ n ∈ childNodes, (n, killMessage) ∈ (routerHandle m s).writes) ∧
    (∀ w ∈ (routerHandle m s).writes, w.2.messageType = MessageTypes.KillMessage) ∧
    (∀ d fm, (routeMessage m s).1 ≠ RouterAction.forwardTo d fm) := by
  have h1 : routeMessage m s = (RouterAction.shutdown, s) := by
    simp only [routeMessage]
    rw [if_neg hnot, if_pos hkill]
  have h2 : routerHandle m s =
      { writes := shutdownWrites, closedAll := true, terminated := true, crashed := false } := by
    simp only [routerHandle, h1]
  refine ⟨h1, h2, ?_, ?_, ?_⟩
  · intro n hn
    rw [h2]
    exact List.mem_map_of_mem (fun n => (n, killMessage)) hn
  · intro w hw
    rw [h2] at hw
    simp only [shutdownWrites, List.mem_map] at hw
    obtain ⟨n, _, rfl⟩ := hw
    rfl
  · intro d fm
    rw [h1]
    simp

/-- Witness for C1 (amended): a Kill sent by the Comm node to the Master is
met with shutdown — one Kill written per child channel, all channels
closed, the loop terminated. -/
theorem routeMessage_kill_shutdown_witness :
    routerHandle { killMessage with
        source := NodeName.TX2Comm, destination := NodeName.TX2Master } emptyQueue =
      { writes := shutdownWrites, closedAll := true, terminated := true, crashed := false } :=
  (routeMessage_kill_shutdown
    { killMessage with source := NodeName.TX2Comm, destination := NodeName.TX2Master }
    emptyQueue rfl (by simp)).2.1

/-- Counterexample for C8: with the consumer holding `being_accessed`, the
producer's `SET_SHARED_POSITION` does not write the payload or set
`data_available` — it busy-waits on the flag, contradicting the claim that
the write path never checks `being_accessed`. -/
theorem setSharedPosition_blocked_counterexample :
    SET_SHARED_POSITION
      { dataAvailableFlag := false, currentlyBeingAccessed := true,
        payload := { latitude := 0, longitude := 0 } }
      { latitude := 10, longitude := 20 } = none := rfl

/-- Claim C8 (amended): the producer's write path checks `being_accessed`
before writing: while the consumer holds the flag the producer spins and
performs no write; once the flag is clear it writes the position payload
and sets `data_available`. -/
theorem setSharedPosition_spec (mem : SharedPositionRegion) (val : Position) :
    (mem.currentlyBeingAccessed = true → SET_SHARED_POSITION mem val = none) ∧
    (mem.currentlyBeingAccessed = false →
      SET_SHARED_POSITION mem val =
        some { mem with payload := val, dataAvailableFlag := true }) := by
  constructor <;> intro h <;> simp [SET_SHARED_POSITION, h]

/-- Witness for C8 (amended): on a free region the producer writes (10,20)
and raises `data_available`; on a busy region it blocks. -/
theorem setSharedPosition_spec_witness :
    SET_SHARED_POSITION
      { dataAvailableFlag := false, currentlyBeingAccessed := false,
        payload := { latitude := 0, longitude := 0 } }
      { latitude := 10, longitude := 20 } =
      some { dataAvailableFlag := true, currentlyBeingAccessed := false,
             payload := { latitude := 10, longitude := 20 } } :=
  (setSharedPosition_spec
    { dataAvailableFlag := false, currentlyBeingAccessed := false,
      payload := { latitude := 0, longitude := 0 } }
    { latitude := 10, longitude := 20 }).2 rfl

theorem getSharedAngleLoop_all_false :
    ∀ (fuel start : ℕ), getSharedAngleLoop (fun _ => false) start fuel = none
  | 0, _ => rfl
  | fuel + 1, start => by
    rw [getSharedAngleLoop, if_neg (by simp)]
    exact getSharedAngleLoop_all_false fuel (start + 1)

/-- Counterexample for C9: when the producer never sets `data_available`, the
consumer's `GET_SHARED_ANGLE` busy-wait never exits, for any amount of
fuel — the angle read does not terminate, so it is not bounded by any
retry/timeout loop. -/
theorem getSharedAngle_spins_forever :
    ¬ angleReadTerminates (fun _ => false) := by
  rintro ⟨fuel, h⟩
  rw [getSharedAngleLoop_all_false fuel 0] at h
  simp at h

theorem getSharedAngleLoop_some_flag (flags : ℕ → Bool) :
    ∀ (fuel start j : ℕ), getSharedAngleLoop flags start fuel = some j → flags j = true
  | 0, _, _, h => by simp [getSharedAngleLoop] at h
  | fuel + 1, start, j, h => by
    rw [getSharedAngleLoop] at h
    by_cases hs : flags start
    · rw [if_pos hs, Option.some_inj] at h
      rwa [← h]
    · rw [if_neg hs] at h
      exact getSharedAngleLoop_some_flag flags fuel (start + 1) j h

theorem getSharedAngleLoop_reaches (flags : ℕ → Bool) :
    ∀ (n start : ℕ), flags (start + n) = true →
      (getSharedAngleLoop flags start (n + 1)).isSome = true
  | 0, start, h => by
    rw [Nat.add_zero] at h
    rw [getSharedAngleLoop, if_pos h]
    rfl
  | n + 1, start, h => by
    rw [getSharedAngleLoop]
    by_cases hs : flags start
    · rw [if_pos hs]
      rfl
    · rw [if_neg hs]
      refine getSharedAngleLoop_reaches flags n (start + 1) ?_
      have heq : start + 1 + n = start + (n + 1) := by omega
      rw [heq]
      exact h

/-- Claim C9 (amended): the consumer's angle read carries no bound of its own:
`GET_SHARED_ANGLE`'s busy-wait on `data_available` terminates exactly when
the flag is eventually observed set, and spins forever when the producer
never sets it (the `multiTurnAttempts < 3` counter in MoveRover only
switches turn-count selection to single steps; it does not bound the
spin). -/
theorem angleReadTerminates_iff (flags : ℕ → Bool) :
    angleReadTerminates flags ↔ ∃ n, flags n = true := by
  constructor
  · rintro ⟨fuel, h⟩
    obtain ⟨j, hj⟩ := Option.isSome_iff_exists.mp h
    exact ⟨j, getSharedAngleLoop_some_flag flags fuel 0 j hj⟩
  · rintro ⟨n, hn⟩
    refine ⟨n + 1, getSharedAngleLoop_reaches flags n 0 ?_⟩
    rwa [Nat.zero_add]

/-- Witness for C9 (amended): with the flag raised at the very first poll the
read terminates. -/
theorem angleReadTerminates_iff_witness :
    angleReadTerminates (fun _ => true) :=
  (angleReadTerminates_iff (fun _ => true)).mpr ⟨0, rfl⟩
